import Mathlib

/-!
Shallow embedding of `python_short.py` ("Karbogha Bayanat"): a batch tool
that turns a JSON plan plus one media source into short vertical videos,
caption files, thumbnails and a CSV manifest.

Modelling conventions:
* Python strings are Lean `String`; `str.strip`, `str.split('\n')`,
  `str.split(' ')`, `str.split()` and truthiness are modelled exactly
  (`pyStrip`, `pySplitOn`, `pySplitWs`, emptiness tests).
* Pixel measurement by `PIL.ImageFont.getlength` and bidi reshaping by
  `arabic_reshaper`/`get_display` are external libraries: they enter the
  embedding as opaque function parameters (`measure`, `reshape`).
* Plan numbers (seconds) are `ℚ`; Python's `str(number)` formatting is an
  opaque parameter `fmt : ℚ → String`.
* File-system and subprocess effects are recorded as an ordered `Event`
  trace (writes into the output directory, and external `ffmpeg`
  invocations); success/failure of an invocation is decided by an oracle
  `renderOk : List String → Bool` standing for the external engine.
-/

/-- Python `str.isspace` charset (ASCII part) used by `str.strip()` /
`str.split()`. -/
def pyIsSpace (c : Char) : Bool :=
  c = ' ' || c = '\t' || c = '\n' || c = '\r' || c = '\x0b' || c = '\x0c'

/-- Python `str.strip()`: drop leading and trailing whitespace. -/
def pyStrip (s : String) : String :=
  (((s.toList.dropWhile pyIsSpace).reverse.dropWhile pyIsSpace).reverse).asString

/-- Split a character list at every character satisfying `p` (keeping empty
fragments), structurally. -/
def splitPred (p : Char → Bool) : List Char → List Char → List (List Char)
  | [], cur => [cur.reverse]
  | c :: rest, cur =>
    if p c then cur.reverse :: splitPred p rest []
    else splitPred p rest (c :: cur)

/-- Python `str.split()` (no argument): split on whitespace runs, no empty
fields. -/
def pySplitWs (s : String) : List String :=
  ((splitPred pyIsSpace s.toList []).map List.asString).filter (fun w => w ≠ "")

/-- Left-to-right scan for Python `str.split(sep)` with a non-empty
separator: at a separator match, cut and skip the matched characters
(tracked by the `skip` counter so the recursion stays structural). -/
def splitSepGo (sep : List Char) : List Char → Nat → List Char → List (List Char)
  | [], _, cur => [cur.reverse]
  | _ :: rest, Nat.succ skip, cur => splitSepGo sep rest skip cur
  | c :: rest, 0, cur =>
    if sep.isPrefixOf (c :: rest) then
      cur.reverse :: splitSepGo sep rest (sep.length - 1) []
    else splitSepGo sep rest 0 (c :: cur)

/-- Python `str.split(sep)` for a non-empty separator string: every
(leftmost, non-overlapping) occurrence cuts, empty fragments are kept. -/
def pySplitOn (s sep : String) : List String :=
  (splitSepGo sep.toList s.toList 0 []).map List.asString

/-- Python `needle in haystack` substring test, via `pySplitOn`
(one fragment exactly when the needle is absent). -/
def hasSub (haystack needle : String) : Bool :=
  (pySplitOn haystack needle).length ≠ 1

/-- One step of the greedy word-wrap accumulator shared by
`wrap_srt_text` (lines 95-102) and `generate_thumbnail` (lines 137-144):
`current_line` is empty-tested with Python truthiness, a fitting candidate
`current + " " + word` extends the line, otherwise the line is emitted and
the word starts a new one. -/
def greedyStep (fits : String → Bool) (acc : List String × String) (w : String) :
    List String × String :=
  if acc.2 = "" then (acc.1, w)
  else if fits (acc.2 ++ " " ++ w) then (acc.1, acc.2 ++ " " ++ w)
  else (acc.1 ++ [acc.2], w)

/-- The greedy word-wrap loop: fold `greedyStep` over the words, then flush
the pending line when non-empty (`if current_line: ...append(current_line)`). -/
def greedyWrap (fits : String → Bool) (words : List String) : List String :=
  let r := words.foldl (greedyStep fits) ([], "")
  if r.2 = "" then r.1 else r.1 ++ [r.2]

/-- `wrap_srt_text` inner per-line handling (lines 91-102): a line whose
reshaped form measures within `maxWidth` is kept verbatim; otherwise the
line is split on single spaces and greedily rewrapped, measuring the
reshaped candidate each time. -/
def wrapOneLine (measure : String → Nat) (reshape : String → String)
    (maxWidth : Nat) (line : String) : List String :=
  if measure (reshape line) ≤ maxWidth then [line]
  else greedyWrap (fun t => measure (reshape t) ≤ maxWidth) (pySplitOn line " ")

/-- The `for line in text_lines` loop of `wrap_srt_text` (lines 91-102),
appending each line's wrap onto `wrapped_text_lines`. -/
def wrapTextLines (measure : String → Nat) (reshape : String → String)
    (maxWidth : Nat) (lines : List String) : List String :=
  lines.foldl (fun acc line => acc ++ wrapOneLine measure reshape maxWidth line) []

/-- Header validity test of one SRT block (line 89): after `strip`, the
block must have at least two lines and the second must contain `-->`. -/
def srtHeaderValid (block : String) : Bool :=
  match pySplitOn (pyStrip block) "\n" with
  | _ :: l1 :: _ => hasSub l1 "-->"
  | _ => false

/-- `wrap_srt_text` body for one `(block, separator)` pair (lines 87-103):
an invalid-header block is passed through as `block ++ separator`; a valid
block keeps its first two (stripped) lines as header, strips each further
text line, rewraps them with `wrapTextLines` and re-joins with the
original separator appended. -/
def wrap_srt_block (measure : String → Nat) (reshape : String → String)
    (maxWidth : Nat) (block sep : String) : String :=
  match pySplitOn (pyStrip block) "\n" with
  | l0 :: l1 :: rest =>
    if hasSub l1 "-->" then
      let header := l0 ++ "\n" ++ l1
      let textLines := rest.map pyStrip
      header ++ "\n" ++
        String.intercalate "\n" (wrapTextLines measure reshape maxWidth textLines) ++ sep
    else block ++ sep
  | _ => block ++ sep

/-- `wrap_srt_text` (lines 82-104) over the block decomposition.  The
regex split `re.split(r'(\r?\n\s*\r?\n)', srt_content)` pairs every block
with its following captured separator (the last block's separator is "");
the embedding takes that decomposition as its input and accumulates
`wrapped_content` exactly as the source loop does. -/
def wrap_srt_text (measure : String → Nat) (reshape : String → String)
    (maxWidth : Nat) (blocks : List (String × String)) : String :=
  blocks.foldl (fun acc p => acc ++ wrap_srt_block measure reshape maxWidth p.1 p.2) ""

/-- The flat word stream of a block's text region (used to state what
"depends only on the word sequence" would mean for `wrap_srt_text`). -/
def blockTextWords (block : String) : List String :=
  match pySplitOn (pyStrip block) "\n" with
  | _ :: _ :: rest => (rest.map pyStrip).flatMap pySplitWs
  | _ => []

-- Helper lemmas on the wrap loops.

theorem foldl_append_eq_flatMap {α β : Type} (f : α → List β) :
    ∀ (ls : List α) (a : List β),
      ls.foldl (fun acc x => acc ++ f x) a = a ++ ls.flatMap f := by
  intro ls
  induction ls with
  | nil => intro a; simp
  | cons x xs ih =>
    intro a
    simp only [List.foldl_cons, List.flatMap_cons]
    rw [ih (a ++ f x)]
    simp [List.append_assoc]

theorem wrapTextLines_eq_flatMap (m : String → Nat) (r : String → String) (w : Nat)
    (ls : List String) :
    wrapTextLines m r w ls = ls.flatMap (wrapOneLine m r w) := by
  unfold wrapTextLines
  rw [foldl_append_eq_flatMap (wrapOneLine m r w) ls []]
  simp

theorem wrapOneLine_of_fits (m : String → Nat) (r : String → String) (w : Nat)
    (line : String) (h : m (r line) ≤ w) :
    wrapOneLine m r w line = [line] := by
  unfold wrapOneLine
  simp [h]

-- Thumbnail layer (`generate_thumbnail`, lines 133-158).

/-- The thumbnail greedy wrap at a given font size (lines 137-144 and the
identical re-wrap inside the shrink loop, lines 146-153): candidates are
measured directly (the title was reshaped once, before splitting), against
the limit `width - 2*margin` (an `Int`, as Python subtraction of ints). -/
def thumbWrap (measure : Nat → String → Nat) (fontSize : Nat) (limit : Int)
    (words : List String) : List String :=
  greedyWrap (fun t => (measure fontSize t : Int) ≤ limit) words

/-- Fuel-indexed unrolling of the shrink loop of `generate_thumbnail`
(lines 145-153): `while len(lines) > max_lines and font_size > 10:
font_size -= 2` and re-wrap at the smaller size.  Each iteration requires
`fontSize > 10` and subtracts 2, so any fuel `≥ fontSize` makes the
fuel-exhausted base case unreachable (`thumbFitGo_exit` below proves the
loop's exit condition under `fontSize ≤ fuel`); the structural fuel keeps
every definition kernel-evaluable. -/
def thumbFitGo (measure : Nat → String → Nat) (limit : Int) (maxLines : Nat)
    (words : List String) : Nat → Nat → List String → List String × Nat
  | 0, fontSize, lines => (lines, fontSize)
  | fuel + 1, fontSize, lines =>
    if lines.length > maxLines ∧ fontSize > 10 then
      thumbFitGo measure limit maxLines words fuel (fontSize - 2)
        (thumbWrap measure (fontSize - 2) limit words)
    else (lines, fontSize)

/-- The shrink loop of `generate_thumbnail`, run with sufficient fuel.
Returns the final wrapped lines and the final font size used for
rendering. -/
def thumbFitLoop (measure : Nat → String → Nat) (limit : Int) (maxLines : Nat)
    (words : List String) (fontSize : Nat) (lines : List String) :
    List String × Nat :=
  thumbFitGo measure limit maxLines words fontSize fontSize lines

/-- `generate_thumbnail` text layout (lines 133-153): start from font size
`int(height/12)`, reshape the title when the direction is `rtl`, split into
whitespace-separated words, wrap greedily, then run the shrink loop. -/
def thumbLayout (measure : Nat → String → Nat) (reshape : String → String)
    (title direction : String) (width height : Nat) (margin : Int)
    (maxLines : Nat) : List String × Nat :=
  let fs0 := height / 12
  let processed := if direction = "rtl" then reshape title else title
  let words := pySplitWs processed
  let limit := (width : Int) - 2 * margin
  thumbFitLoop measure limit maxLines words fs0 (thumbWrap measure fs0 limit words)

theorem thumbFitGo_inv (measure : Nat → String → Nat) (limit : Int)
    (maxLines : Nat) (words : List String) :
    ∀ fuel fontSize lines,
      (fontSize ≤ fuel →
        ¬(((thumbFitGo measure limit maxLines words fuel fontSize lines).1.length > maxLines) ∧
            (thumbFitGo measure limit maxLines words fuel fontSize lines).2 > 10)) ∧
      (thumbFitGo measure limit maxLines words fuel fontSize lines).2 ≤ fontSize ∧
      ((thumbFitGo measure limit maxLines words fuel fontSize lines).2 = fontSize ∨
        (fontSize > 10 ∧ 9 ≤ (thumbFitGo measure limit maxLines words fuel fontSize lines).2)) ∧
      (fontSize - (thumbFitGo measure limit maxLines words fuel fontSize lines).2) % 2 = 0 ∧
      (fontSize % 2 = 0 → 10 ≤ fontSize →
        10 ≤ (thumbFitGo measure limit maxLines words fuel fontSize lines).2) := by
  intro fuel
  induction fuel with
  | zero =>
    intro fontSize lines
    have heq : thumbFitGo measure limit maxLines words 0 fontSize lines =
        (lines, fontSize) := rfl
    rw [heq]
    exact ⟨fun hle hcontra => by omega, le_refl _, Or.inl rfl, by omega, fun _ h10 => h10⟩
  | succ fuel ih =>
    intro fontSize lines
    by_cases h : lines.length > maxLines ∧ fontSize > 10
    · have heq : thumbFitGo measure limit maxLines words (fuel + 1) fontSize lines =
          thumbFitGo measure limit maxLines words fuel (fontSize - 2)
            (thumbWrap measure (fontSize - 2) limit words) := by
        simp only [thumbFitGo, if_pos h]
      rw [heq]
      obtain ⟨h1, h2, h3, h4, h5⟩ :=
        ih (fontSize - 2) (thumbWrap measure (fontSize - 2) limit words)
      refine ⟨fun hle => h1 (by omega), by omega, ?_, by omega, ?_⟩
      · rcases h3 with h3 | h3
        · right; exact ⟨h.2, by omega⟩
        · right; exact ⟨h.2, h3.2⟩
      · intro hpar h10
        exact h5 (by omega) (by omega)
    · have heq : thumbFitGo measure limit maxLines words (fuel + 1) fontSize lines =
          (lines, fontSize) := by
        simp only [thumbFitGo, if_neg h]
      rw [heq]
      exact ⟨fun _ => h, le_refl _, Or.inl rfl, by omega, fun _ h10 => h10⟩

theorem thumbFitLoop_inv (measure : Nat → String → Nat) (limit : Int)
    (maxLines : Nat) (words : List String) (fontSize : Nat) (lines : List String) :
    ¬(((thumbFitLoop measure limit maxLines words fontSize lines).1.length > maxLines) ∧
        (thumbFitLoop measure limit maxLines words fontSize lines).2 > 10) ∧
    (thumbFitLoop measure limit maxLines words fontSize lines).2 ≤ fontSize ∧
    ((thumbFitLoop measure limit maxLines words fontSize lines).2 = fontSize ∨
      (fontSize > 10 ∧ 9 ≤ (thumbFitLoop measure limit maxLines words fontSize lines).2)) ∧
    (fontSize - (thumbFitLoop measure limit maxLines words fontSize lines).2) % 2 = 0 ∧
    (fontSize % 2 = 0 → 10 ≤ fontSize →
      10 ≤ (thumbFitLoop measure limit maxLines words fontSize lines).2) := by
  obtain ⟨h1, h2, h3, h4, h5⟩ := thumbFitGo_inv measure limit maxLines words fontSize fontSize lines
  exact ⟨h1 (le_refl _), h2, h3, h4, h5⟩

-- Data model and per-clip pipeline (`process_short`, `get_media_info`, `main`).

/-- ASCII fragment of the regex class `\w` used by `slugify` (the claims
under verification only exercise ASCII titles). -/
def pyWordChar (c : Char) : Bool :=
  c.isAlphanum || c = '_'

/-- Characters matched by `[\s_-]` in `slugify`'s second substitution. -/
def slugSep (c : Char) : Bool :=
  pyIsSpace c || c = '_' || c = '-'

/-- `re.sub(r'[\s_-]+', '-', s)`: collapse every run of separators to a
single hyphen. -/
def collapseSeps (cs : List Char) : List Char :=
  cs.foldr
    (fun c acc =>
      if slugSep c then
        match acc with
        | '-' :: _ => acc
        | _ => '-' :: acc
      else c :: acc) []

/-- `slugify` (lines 43-47): drop characters outside `[\w\s-]`, strip,
lowercase, collapse separator runs to `-`, truncate to 80 characters. -/
def slugify (text : String) : String :=
  let kept := text.toList.filter (fun c => pyWordChar c || pyIsSpace c || c = '-')
  let stripped := (kept.dropWhile pyIsSpace).reverse.dropWhile pyIsSpace |>.reverse
  let lowered := stripped.map Char.toLower
  ((collapseSeps lowered).take 80).asString

/-- A JSON value as produced by `json.loads` over ffprobe's stdout. -/
inductive JVal where
  | jnull
  | jbool (b : Bool)
  | jnum (q : ℚ)
  | jstr (s : String)
  | jarr (xs : List JVal)
  | jobj (kvs : List (String × JVal))

/-- Python `dict.get` lookup for a dict built by `json.loads` (duplicate
keys: the last binding wins). -/
def dictGetLast (kvs : List (String × JVal)) (k : String) : Option JVal :=
  kvs.foldl (fun acc p => if p.1 = k then some p.2 else acc) none

/-- Python truthiness of a JSON value. -/
def pyTruthy : JVal → Bool
  | .jnull => false
  | .jbool b => b
  | .jnum q => q ≠ 0
  | .jstr s => s ≠ ""
  | .jarr xs => !xs.isEmpty
  | .jobj kvs => !kvs.isEmpty

/-- The observable outcome of the `ffprobe` subprocess run inside
`get_media_info`. -/
inductive ProbeOutcome where
  | procError
  | badOutput
  | jsonOut (v : JVal)

/-- The media-info dict returned when no visual stream is available:
`{"codec_type": "audio"}`. -/
def audioDefault : JVal := .jobj [("codec_type", .jstr "audio")]

/-- `get_media_info` (lines 67-74).  `CalledProcessError`, `JSONDecodeError`
and `IndexError` are caught and yield the audio default; exceptions outside
that tuple (e.g. `AttributeError` from `.get` on a non-dict value) would
propagate, modelled as `.error`. -/
def get_media_info (o : ProbeOutcome) : Except String JVal :=
  match o with
  | .procError => .ok audioDefault
  | .badOutput => .ok audioDefault
  | .jsonOut v =>
    match v with
    | .jobj kvs =>
      let streams := (dictGetLast kvs "streams").getD (.jarr [])
      if pyTruthy streams then
        match streams with
        | .jarr (x :: _) => .ok x
        | .jarr [] => .ok audioDefault
        | _ => .error "TypeError"
      else .ok audioDefault
    | _ => .error "AttributeError"

/-- Probe output that parses but reports no visual stream (`streams`
missing or the empty array). -/
def reportsNoVisual (v : JVal) : Bool :=
  match v with
  | .jobj kvs =>
    match dictGetLast kvs "streams" with
    | none => true
    | some (.jarr xs) => xs.isEmpty
    | some _ => false
  | _ => false

/-- One plan entry (a `shorts` array element of the JSON plan). -/
structure ShortData where
  id : String
  title : String
  start_sec : ℚ
  end_sec : ℚ
  duration_sec : ℚ
  language : String
  direction : String
  category : String
  keywords : List String
  srt : Option String
  thumbnail_title : String
deriving DecidableEq

/-- The configuration surface reaching `process_short` (`args.size` is
kept pre-parsed as `width`/`height`, as `map(int, args.size.split('x'))`
computes on line 180). -/
structure RunArgs where
  outdir : String
  thumb_bg : String
  width : Nat
  height : Nat
  margin : Int
  max_lines : Nat
deriving DecidableEq

/-- Contents of a file materialised in the output directory. -/
inductive FileContent where
  | text (s : String)
  | jpeg (lines : List String) (fontSize : Nat) (bg : String)
  | renderOutput (cmd : List String)
  | copyOf (c : FileContent)
deriving DecidableEq

/-- An observable effect of `process_short`: a write into the output
directory, or one external `ffmpeg` invocation. -/
inductive Event where
  | write (path : String) (content : FileContent)
  | exec (cmd : List String)
deriving DecidableEq

/-- The record appended to `manifest_data` on success (line 212); field
order matches the Python dict literal. -/
structure ManifestRecord where
  id : String
  title : String
  start_sec : ℚ
  end_sec : ℚ
  duration_sec : ℚ
  language : String
  direction : String
  category : String
  keywords : String
  video_path : String
  srt_path : String
  thumb_path : String
deriving DecidableEq

/-- `manifest_data[0].keys()`: the field names of a success record, in
dict-literal order. -/
def recordKeys : List String :=
  ["id", "title", "start_sec", "end_sec", "duration_sec", "language",
   "direction", "category", "keywords", "video_path", "srt_path", "thumb_path"]

/-- Return value of `process_short`: `None` (skip) or a record. -/
inductive ShortResult where
  | skipped
  | ok (r : ManifestRecord)
deriving DecidableEq

/-- The batch context: external oracles plus the read-only shared state
(`media_info`, fonts, args) resolved once in `main`.  `measC`/`measU` are
the pixel-measure families of the LTR and RTL fonts (indexed by font
size), `reshape` is `process_rtl_text`, `fmt` is Python's `str` on plan
numbers, `sourceExt` the suffix of the resolved source media path, and
`renderOk` decides whether a given external command succeeds. -/
structure Ctx where
  renderOk : List String → Bool
  measC : Nat → String → Nat
  measU : Nat → String → Nat
  reshape : String → String
  fmt : ℚ → String
  sourceExt : String
  mediaInfo : JVal
  args : RunArgs

/-- Python truthiness of `short_data.get('srt')` (line 173): present and
non-empty. -/
def srtTruthy (srt : Option String) : Bool :=
  match srt with
  | some s => s ≠ ""
  | none => false

/-- The audio-source filter chain (lines 188-195). -/
def audioFilterChain (ctx : Ctx) (short : ShortData) : List String :=
  let w := toString ctx.args.width
  let h := toString ctx.args.height
  [ "[0:v]scale=" ++ w ++ ":" ++ h ++ ",loop=loop=-1:size=1:start=0[bg]",
    "[1:a]atrim=start=" ++ ctx.fmt short.start_sec ++ ":end=" ++ ctx.fmt short.end_sec ++
      ",asetpts=PTS-STARTPTS[a_trimmed]",
    "[a_trimmed]asplit=2[a][a_wave]",
    "[a_wave]showwaves=s=" ++ w ++ "x" ++ toString (ctx.args.height * 2 / 10) ++
      ":mode=line:colors=#FFFFFF|#CCCCCC:rate=25,format=yuva420p[wave]",
    "[bg][wave]overlay=(W-w)/2:H*0.65[v_final]",
    "[a]loudnorm=I=-14:LRA=11:TP=-1.5[a_final]" ]

/-- The audio-source `ffmpeg` invocation (line 197).  Temporary working
paths are rendered as the fixed names the code produces inside its scoped
temp directory; `int(height*0.2)` is modelled as `height*2/10` (exact for
the supported geometries, e.g. 1920 → 384). -/
def audioCommand (ctx : Ctx) (short : ShortData) (videoPath : String) : List String :=
  ["ffmpeg", "-y", "-i", "thumb.jpg", "-i", "source" ++ ctx.sourceExt,
   "-filter_complex", String.intercalate ";" (audioFilterChain ctx short),
   "-map", "[v_final]", "-map", "[a_final]", "-c:v", "libx264", "-preset", "fast",
   "-crf", "22", "-c:a", "aac", "-b:a", "128k",
   "-t", ctx.fmt short.duration_sec, videoPath]

/-- The video-source `ffmpeg` invocation (lines 203-206). -/
def videoCommand (ctx : Ctx) (short : ShortData) (videoPath : String) : List String :=
  let w := toString ctx.args.width
  let h := toString ctx.args.height
  ["ffmpeg", "-y", "-ss", ctx.fmt short.start_sec, "-to", ctx.fmt short.end_sec,
   "-i", "source" ++ ctx.sourceExt,
   "-vf", "scale=" ++ w ++ ":" ++ h ++ ":force_original_aspect_ratio=decrease,pad=" ++
     w ++ ":" ++ h ++ ":(ow-iw)/2:(oh-ih)/2:color=black",
   "-af", "loudnorm=I=-14:LRA=11:TP=-1.5",
   "-c:v", "libx264", "-preset", "fast", "-crf", "22", "-c:a", "aac", "-b:a", "128k",
   videoPath]

/-- The thumbnail-extraction invocation for video sources (line 209). -/
def thumbCommand (videoPath thumbPath : String) : List String :=
  ["ffmpeg", "-y", "-ss", "0", "-i", videoPath, "-vframes", "1", "-q:v", "2", thumbPath]

/-- The success record built on line 212. -/
def buildRecord (short : ShortData) (videoName srtName thumbName : String) :
    ManifestRecord :=
  { id := short.id
    title := short.title
    start_sec := short.start_sec
    end_sec := short.end_sec
    duration_sec := short.duration_sec
    language := short.language
    direction := short.direction
    category := short.category
    keywords := String.intercalate "," short.keywords
    video_path := videoName
    srt_path := if srtTruthy short.srt then srtName else ""
    thumb_path := thumbName }

/-- `final_output_video_path` filename (line 162). -/
def videoNameOf (short : ShortData) : String :=
  short.id ++ "__" ++ slugify short.title ++ ".mp4"

/-- `final_output_srt_path` filename (line 163). -/
def srtNameOf (short : ShortData) : String :=
  short.id ++ "__" ++ slugify short.title ++ ".srt"

/-- `final_output_thumb_path` filename (line 164). -/
def thumbNameOf (short : ShortData) : String :=
  short.id ++ "__thumb.jpg"

/-- A path inside the output directory (`args.outdir / name`). -/
def outPathOf (ctx : Ctx) (name : String) : String :=
  ctx.args.outdir ++ "/" ++ name

/-- The caption-file write performed on lines 172-174 (`if srt_content:`
uses Python truthiness, so an empty string is not written). -/
def srtEventsOf (ctx : Ctx) (short : ShortData) : List Event :=
  match short.srt with
  | some s =>
    if s ≠ "" then [Event.write (outPathOf ctx (srtNameOf short)) (.text s)] else []
  | none => []

/-- The dispatch test `media_info.get("codec_type") == "audio"` (line 182)
for a dict `media_info`. -/
def codecAudioTest (kvs : List (String × JVal)) : Bool :=
  (dictGetLast kvs "codec_type").any (fun v =>
    match v with
    | .jstr s => s = "audio"
    | _ => false)

/-- The temp-dir rendering section of `process_short` (lines 176-212):
media-kind dispatch, external invocations and the resulting
output-directory writes.  Reached only after validation and the caption
write; its trace is appended after the caption event. -/
def clipRender (ctx : Ctx) (short : ShortData) :
    List Event × Option ShortResult :=
  let videoName := videoNameOf short
  let srtName := srtNameOf short
  let thumbName := thumbNameOf short
  let videoPath := outPathOf ctx videoName
  let thumbPath := outPathOf ctx thumbName
  match ctx.mediaInfo with
  | .jobj kvs =>
    if codecAudioTest kvs then
      -- audio source (lines 182-199)
      let meas := if short.direction = "rtl" then ctx.measU else ctx.measC
      let layout := thumbLayout meas ctx.reshape short.thumbnail_title short.direction
        ctx.args.width ctx.args.height ctx.args.margin ctx.args.max_lines
      let thumbContent := FileContent.jpeg layout.1 layout.2 ctx.args.thumb_bg
      let cmd := audioCommand ctx short videoPath
      if ctx.renderOk cmd then
        ([Event.exec cmd, Event.write videoPath (.renderOutput cmd),
          Event.write thumbPath (.copyOf thumbContent)],
         some (.ok (buildRecord short videoName srtName thumbName)))
      else ([Event.exec cmd], none)
    else
      -- video source (lines 201-210)
      let cmd := videoCommand ctx short videoPath
      if ctx.renderOk cmd then
        let tcmd := thumbCommand videoPath thumbPath
        if ctx.renderOk tcmd then
          ([Event.exec cmd, Event.write videoPath (.renderOutput cmd),
            Event.exec tcmd, Event.write thumbPath (.renderOutput tcmd)],
           some (.ok (buildRecord short videoName srtName thumbName)))
        else ([Event.exec cmd, Event.write videoPath (.renderOutput cmd),
          Event.exec tcmd], none)
      else ([Event.exec cmd], none)
  | _ => ([], none)

/-- `process_short` (lines 160-212).  Returns the ordered trace of
observable effects (output-directory writes and external invocations) and
the Python return value: `some .skipped` for the early `return None`,
`some (.ok r)` for a success record, `none` when an exception escapes
(failed `ffmpeg` run, or `.get` on a non-dict `media_info`).  The early
duration gate (lines 166-169) precedes the caption write (lines 171-174),
which precedes the rendering section; writes into the scoped temporary
directory (the private source copy, the pre-copy thumbnail) are internal
and not traced. -/
def process_short (ctx : Ctx) (short : ShortData) :
    List Event × Option ShortResult :=
  if ¬(5 ≤ short.duration_sec ∧ short.duration_sec ≤ 60) then ([], some .skipped)
  else
    (srtEventsOf ctx short ++ (clipRender ctx short).1, (clipRender ctx short).2)

/-- Entry classification used by the orchestrator loop (lines 259-264). -/
def isSuccessB (ctx : Ctx) (s : ShortData) : Bool :=
  match (process_short ctx s).2 with
  | some (.ok _) => true
  | _ => false

def isSkipB (ctx : Ctx) (s : ShortData) : Bool :=
  match (process_short ctx s).2 with
  | some .skipped => true
  | _ => false

def isFailB (ctx : Ctx) (s : ShortData) : Bool :=
  match (process_short ctx s).2 with
  | none => true
  | _ => false

/-- The record an entry contributes, if any. -/
def successRec (ctx : Ctx) (s : ShortData) : Option ManifestRecord :=
  match (process_short ctx s).2 with
  | some (.ok r) => some r
  | _ => none

/-- The orchestrator loop of `main` (lines 256-264): iterate the plan in
order, appending each success record to `manifest_data`; a `None` result
or an escaped exception appends nothing and the loop continues. -/
def runPlan (ctx : Ctx) (shorts : List ShortData) : List ManifestRecord :=
  shorts.foldl
    (fun acc s =>
      match (process_short ctx s).2 with
      | some (.ok r) => acc ++ [r]
      | _ => acc) []

/-- The written manifest: header plus ordered rows. -/
structure ManifestOut where
  header : List String
  rows : List ManifestRecord
deriving DecidableEq

/-- The manifest step of `main` (lines 266-271): written only when
`manifest_data` is non-empty, with `fieldnames = manifest_data[0].keys()`
as header and the records as rows, in order. -/
def writeManifestOpt (records : List ManifestRecord) : Option ManifestOut :=
  match records with
  | [] => none
  | _ :: _ => some ⟨recordKeys, records⟩

-- Helper lemmas on the orchestrator loop.

theorem runPlan_foldl_shift (ctx : Ctx) :
    ∀ (shorts : List ShortData) (acc : List ManifestRecord),
      shorts.foldl
        (fun acc s =>
          match (process_short ctx s).2 with
          | some (.ok r) => acc ++ [r]
          | _ => acc) acc =
      acc ++ shorts.filterMap (successRec ctx) := by
  intro shorts
  induction shorts with
  | nil => intro acc; simp
  | cons s ss ih =>
    intro acc
    simp only [List.foldl_cons, List.filterMap_cons]
    rcases h : (process_short ctx s).2 with _ | sr
    · simp only [successRec, h]
      rw [ih acc]
    · cases sr with
      | skipped =>
        simp only [successRec, h]
        rw [ih acc]
      | ok r =>
        simp only [successRec, h]
        rw [ih (acc ++ [r])]
        simp [List.append_assoc]

theorem runPlan_eq_filterMap (ctx : Ctx) (shorts : List ShortData) :
    runPlan ctx shorts = shorts.filterMap (successRec ctx) := by
  unfold runPlan
  rw [runPlan_foldl_shift ctx shorts []]
  simp

theorem outcome_partition (ctx : Ctx) (shorts : List ShortData) :
    (shorts.filterMap (successRec ctx)).length +
      shorts.countP (isSkipB ctx) + shorts.countP (isFailB ctx) = shorts.length := by
  induction shorts with
  | nil => simp
  | cons s ss ih =>
    simp only [List.filterMap_cons, List.countP_cons, List.length_cons]
    rcases h : (process_short ctx s).2 with _ | sr
    · simp only [successRec, isSkipB, isFailB, h]
      simp only [if_true, if_false, reduceCtorEq]
      simp
      omega
    · cases sr with
      | skipped =>
        simp only [successRec, isSkipB, isFailB, h]
        simp only [if_true, if_false, reduceCtorEq]
        simp
        omega
      | ok r =>
        simp only [successRec, isSkipB, isFailB, h, List.length_cons]
        simp only [if_true, if_false, reduceCtorEq]
        simp
        omega

theorem length_filterMap_eq_countP (ctx : Ctx) (shorts : List ShortData) :
    (shorts.filterMap (successRec ctx)).length = shorts.countP (isSuccessB ctx) := by
  induction shorts with
  | nil => simp
  | cons s ss ih =>
    simp only [List.filterMap_cons, List.countP_cons]
    rcases h : (process_short ctx s).2 with _ | sr
    · simp only [successRec, isSuccessB, h]
      simpa using ih
    · cases sr with
      | skipped =>
        simp only [successRec, isSuccessB, h]
        simpa using ih
      | ok r =>
        simp only [successRec, isSuccessB, h, List.length_cons]
        simp
        omega

-- Structural lemmas about the per-clip pipeline.

theorem process_short_skip (ctx : Ctx) (short : ShortData)
    (h : ¬(5 ≤ short.duration_sec ∧ short.duration_sec ≤ 60)) :
    process_short ctx short = ([], some .skipped) := by
  unfold process_short
  rw [if_pos h]

theorem process_short_in_range (ctx : Ctx) (short : ShortData)
    (h : 5 ≤ short.duration_sec ∧ short.duration_sec ≤ 60) :
    process_short ctx short =
      (srtEventsOf ctx short ++ (clipRender ctx short).1, (clipRender ctx short).2) := by
  unfold process_short
  rw [if_neg (not_not_intro h)]

theorem srtEventsOf_some (ctx : Ctx) (short : ShortData) (s : String)
    (hs : short.srt = some s) (hne : s ≠ "") :
    srtEventsOf ctx short =
      [Event.write (outPathOf ctx (srtNameOf short)) (.text s)] := by
  unfold srtEventsOf
  rw [hs]
  simp [hne]

theorem clipRender_audio_exec (ctx : Ctx) (short : ShortData)
    (kvs : List (String × JVal)) (hm : ctx.mediaInfo = .jobj kvs)
    (ha : codecAudioTest kvs = true) :
    Event.exec (audioCommand ctx short (outPathOf ctx (videoNameOf short)))
      ∈ (clipRender ctx short).1 := by
  unfold clipRender
  rw [hm]
  simp only [ha, if_true]
  by_cases hro : ctx.renderOk (audioCommand ctx short (outPathOf ctx (videoNameOf short)))
  · simp [hro]
  · simp [hro]

theorem clipRender_text_writes (ctx : Ctx) (short : ShortData) :
    ∀ p c, Event.write p c ∈ (clipRender ctx short).1 →
      ∀ t, c ≠ FileContent.text t := by
  intro p c hmem t
  cases hm : ctx.mediaInfo
  case jobj kvs =>
    unfold clipRender at hmem
    rw [hm] at hmem
    simp only at hmem
    by_cases ha : codecAudioTest kvs
    · by_cases hro : ctx.renderOk (audioCommand ctx short (outPathOf ctx (videoNameOf short)))
      · simp [ha, hro] at hmem
        rcases hmem with ⟨hp, hc⟩ | ⟨hp, hc⟩ <;> simp [hc]
      · simp [ha, hro] at hmem
    · by_cases hro : ctx.renderOk (videoCommand ctx short (outPathOf ctx (videoNameOf short)))
      · by_cases hro2 : ctx.renderOk (thumbCommand (outPathOf ctx (videoNameOf short))
          (outPathOf ctx (thumbNameOf short)))
        · simp [ha, hro, hro2] at hmem
          rcases hmem with ⟨hp, hc⟩ | ⟨hp, hc⟩ <;> simp [hc]
        · simp [ha, hro, hro2] at hmem
          rcases hmem with ⟨hp, hc⟩
          simp [hc]
      · simp [ha, hro] at hmem
  all_goals
    unfold clipRender at hmem
    rw [hm] at hmem
    simp at hmem

theorem strFoldl_shift (g : String × String → String) :
    ∀ (l : List (String × String)) (a : String),
      l.foldl (fun acc p => acc ++ g p) a = a ++ l.foldl (fun acc p => acc ++ g p) "" := by
  intro l
  induction l with
  | nil => intro a; simp
  | cons x xs ih =>
    intro a
    simp only [List.foldl_cons]
    rw [ih (a ++ g x), ih ("" ++ g x)]
    simp [String.append_assoc]

theorem wrap_srt_text_segment (m : String → Nat) (r : String → String) (w : Nat)
    (b sep : String) (ps1 ps2 : List (String × String)) :
    wrap_srt_text m r w (ps1 ++ (b, sep) :: ps2) =
      wrap_srt_text m r w ps1 ++ wrap_srt_block m r w b sep ++ wrap_srt_text m r w ps2 := by
  unfold wrap_srt_text
  rw [List.foldl_append, List.foldl_cons]
  rw [strFoldl_shift _ ps2 (List.foldl _ "" ps1 ++ wrap_srt_block m r w b sep)]

-- Concrete instantiations used by witnesses and counterexamples: a width
-- measure proportional to character count and font size (standing for a
-- fixed-pitch font), the identity reshaper (ASCII text is unchanged by
-- bidi reshaping), and a plain rational formatter for `str(number)`.

def measLen1 (s : String) : Nat := s.length

def measLen (fontSize : Nat) (s : String) : Nat := fontSize * s.length

def fmtQ (q : ℚ) : String :=
  if q.den = 1 then toString q.num else toString q.num ++ "/" ++ toString q.den

-- Concrete fixtures for witnesses and counterexamples.

def cexArgs : RunArgs :=
  { outdir := "out", thumb_bg := "#101114", width := 1080, height := 1920,
    margin := 40, max_lines := 2 }

def cexCtxAudio : Ctx :=
  { renderOk := fun _ => true, measC := measLen, measU := measLen, reshape := id,
    fmt := fmtQ, sourceExt := ".mp3", mediaInfo := audioDefault, args := cexArgs }

/-- C4: for every caption block whose header lacks a valid time-range
marker ('-->' in its second line), the reflow operation emits that block
and its separator byte-for-byte identical to the input, both as the
per-block output and at its position inside the accumulated track. -/
theorem c4_invalid_header_passthrough (m : String → Nat) (r : String → String)
    (w : Nat) (block sep : String) (h : srtHeaderValid block = false) :
    wrap_srt_block m r w block sep = block ++ sep ∧
    ∀ ps1 ps2 : List (String × String),
      wrap_srt_text m r w (ps1 ++ (block, sep) :: ps2) =
        wrap_srt_text m r w ps1 ++ (block ++ sep) ++ wrap_srt_text m r w ps2 := by
  have hb : wrap_srt_block m r w block sep = block ++ sep := by
    unfold wrap_srt_block
    unfold srtHeaderValid at h
    cases hs : pySplitOn (pyStrip block) "\n" with
    | nil => rfl
    | cons l0 tl =>
      cases tl with
      | nil => rfl
      | cons l1 rest =>
        rw [hs] at h
        have h2 : hasSub l1 "-->" = false := h
        simp [h2]
  refine ⟨hb, fun ps1 ps2 => ?_⟩
  rw [wrap_srt_text_segment, hb]

theorem c4_invalid_header_passthrough_witness :
    srtHeaderValid "hello" = false ∧
    wrap_srt_block measLen1 id 5 "hello" "\n\n" = "hello" ++ "\n\n" ∧
    wrap_srt_text measLen1 id 5 [("x", "\n\n"), ("hello", "\n\n")] =
      wrap_srt_text measLen1 id 5 [("x", "\n\n")] ++ ("hello" ++ "\n\n") ++
        wrap_srt_text measLen1 id 5 [] := by
  have h := c4_invalid_header_passthrough measLen1 id 5 "hello" "\n\n" (by decide)
  exact ⟨by decide, h.1, h.2 [("x", "\n\n")] []⟩

/-- C5 (amended): the reflow operation does not merge a block's text lines
into one flat word stream; each text line is rewrapped independently (the
per-block output is the concatenation of the per-line wraps) and a line
that already fits is emitted verbatim, so output line breaks depend on the
input's original line breaks as well as on the words and the width. -/
theorem c5_wrap_per_line (m : String → Nat) (r : String → String) (w : Nat)
    (ls : List String) :
    wrapTextLines m r w ls = ls.flatMap (wrapOneLine m r w) ∧
    ∀ l, m (r l) ≤ w → wrapOneLine m r w l = [l] :=
  ⟨wrapTextLines_eq_flatMap m r w ls, fun l h => wrapOneLine_of_fits m r w l h⟩

theorem c5_wrap_per_line_witness :
    wrapTextLines measLen1 id 4 ["aaaaaa bb", "cc"] =
      (["aaaaaa bb", "cc"] : List String).flatMap (wrapOneLine measLen1 id 4) ∧
    wrapOneLine measLen1 id 4 "cc" = ["cc"] := by
  have h := c5_wrap_per_line measLen1 id 4 ["aaaaaa bb", "cc"]
  exact ⟨h.1, h.2 "cc" (by decide)⟩

def cex5Block1 : String := "1\n0 --> 1\naa\nbb"

def cex5Block2 : String := "1\n0 --> 1\naa bb"

theorem c5_flat_stream_cex :
    blockTextWords cex5Block1 = blockTextWords cex5Block2 ∧
    srtHeaderValid cex5Block1 = true ∧ srtHeaderValid cex5Block2 = true ∧
    wrap_srt_block measLen1 id 10 cex5Block1 "" ≠
      wrap_srt_block measLen1 id 10 cex5Block2 "" := by
  exact ⟨by decide, by decide, by decide, by decide⟩

/-- C6: the greedy word-wrap is idempotent — on a sequence of lines that
each measure (after reshaping) within the width limit, the wrap loop of
`wrap_srt_text` reproduces exactly the same sequence of lines. -/
theorem c6_wrap_idempotent (m : String → Nat) (r : String → String) (w : Nat)
    (ls : List String) (h : ∀ l ∈ ls, m (r l) ≤ w) :
    wrapTextLines m r w ls = ls := by
  rw [wrapTextLines_eq_flatMap]
  induction ls with
  | nil => rfl
  | cons l tl ih =>
    rw [List.flatMap_cons, wrapOneLine_of_fits m r w l (h l (List.mem_cons_self l tl)),
      ih (fun x hx => h x (List.mem_cons_of_mem l hx))]
    rfl

theorem c6_wrap_idempotent_witness :
    (∀ l ∈ (["aa bb", "cc"] : List String), measLen1 (id l) ≤ 10) ∧
    wrapTextLines measLen1 id 10 ["aa bb", "cc"] = ["aa bb", "cc"] :=
  ⟨by decide, c6_wrap_idempotent measLen1 id 10 ["aa bb", "cc"] (by decide)⟩

/-- C7 (amended): the thumbnail fitting loop terminates with the loop's
exit condition (`lines ≤ maxLines` or font size `≤ 10`); the font size
never exceeds the start `height/12`, shrinks in steps of 2, and never
drops below 9 when the start exceeds the floor of 10 (it equals the start
otherwise); when the starting size is even and at least 10 — in
particular at the default 1080x1920 geometry — the size never drops below
the floor of 10.  The rendered line count can exceed `maxLines` only when
the final font size is at most 10, and with an odd starting size the
final size can be 9, one unit below the stated floor. -/
theorem c7_thumb_fit_bounds (measure : Nat → String → Nat) (reshape : String → String)
    (title direction : String) (width height : Nat) (margin : Int) (maxLines : Nat) :
    ((thumbLayout measure reshape title direction width height margin maxLines).1.length ≤ maxLines ∨
      (thumbLayout measure reshape title direction width height margin maxLines).2 ≤ 10) ∧
    (thumbLayout measure reshape title direction width height margin maxLines).2 ≤ height / 12 ∧
    ((thumbLayout measure reshape title direction width height margin maxLines).2 = height / 12 ∨
      (height / 12 > 10 ∧
        9 ≤ (thumbLayout measure reshape title direction width height margin maxLines).2)) ∧
    (height / 12 - (thumbLayout measure reshape title direction width height margin maxLines).2) % 2
      = 0 ∧
    ((height / 12) % 2 = 0 → 10 ≤ height / 12 →
      10 ≤ (thumbLayout measure reshape title direction width height margin maxLines).2) := by
  unfold thumbLayout
  simp only
  obtain ⟨h1, h2, h3, h4, h5⟩ := thumbFitLoop_inv measure ((width : Int) - 2 * margin) maxLines
    (pySplitWs (if direction = "rtl" then reshape title else title)) (height / 12)
    (thumbWrap measure (height / 12) ((width : Int) - 2 * margin)
      (pySplitWs (if direction = "rtl" then reshape title else title)))
  exact ⟨by omega, h2, h3, h4, h5⟩

theorem c7_thumb_fit_bounds_witness :
    10 ≤ (thumbLayout measLen id "t" "ltr" 1080 1920 40 2).2 :=
  (c7_thumb_fit_bounds measLen id "t" "ltr" 1080 1920 40 2).2.2.2.2 (by decide) (by decide)

theorem c7_floor_undershoot_cex :
    thumbLayout measLen id "aa bb cc" "ltr" 20 132 0 2 = (["aa", "bb", "cc"], 9) ∧
    132 / 12 = 11 ∧ (9 : Nat) < 10 ∧
    2 < (thumbLayout measLen id "aa bb cc" "ltr" 20 132 0 2).1.length := by
  exact ⟨by decide, by decide, by decide, by decide⟩

/-- C1 (amended): the gate checks the plan entry's `duration_sec` field
(not `end_sec - start_sec`): for every entry whose `duration_sec` is
outside [5, 60], processing produces no output files and no external
invocation, appends no record, and the batch continues with the remaining
entries. -/
theorem c1_duration_gate (ctx : Ctx) (short : ShortData)
    (h : ¬(5 ≤ short.duration_sec ∧ short.duration_sec ≤ 60)) :
    process_short ctx short = ([], some .skipped) ∧
    ∀ pre post : List ShortData,
      runPlan ctx (pre ++ short :: post) = runPlan ctx (pre ++ post) := by
  have hskip := process_short_skip ctx short h
  refine ⟨hskip, fun pre post => ?_⟩
  rw [runPlan_eq_filterMap, runPlan_eq_filterMap, List.filterMap_append,
    List.filterMap_append, List.filterMap_cons]
  have hnone : successRec ctx short = none := by
    unfold successRec
    rw [hskip]
  rw [hnone]

def cex1Skip : ShortData :=
  { id := "k1", title := "t", start_sec := 0, end_sec := 3, duration_sec := 3,
    language := "en", direction := "ltr", category := "c", keywords := [],
    srt := none, thumbnail_title := "T" }

theorem c1_duration_gate_witness :
    ¬(5 ≤ cex1Skip.duration_sec ∧ cex1Skip.duration_sec ≤ 60) ∧
    process_short cexCtxAudio cex1Skip = ([], some ShortResult.skipped) ∧
    runPlan cexCtxAudio ([] ++ cex1Skip :: []) = runPlan cexCtxAudio ([] ++ []) := by
  have h := c1_duration_gate cexCtxAudio cex1Skip (by decide)
  exact ⟨by decide, h.1, h.2 [] []⟩

def cex1Gate : ShortData :=
  { id := "g1", title := "t", start_sec := 0, end_sec := 100, duration_sec := 30,
    language := "en", direction := "ltr", category := "c", keywords := [],
    srt := some "1\n0 --> 1\nhello", thumbnail_title := "T" }

theorem c1_duration_gate_cex :
    ¬(5 ≤ cex1Gate.end_sec - cex1Gate.start_sec ∧
        cex1Gate.end_sec - cex1Gate.start_sec ≤ 60) ∧
    (process_short cexCtxAudio cex1Gate).1.countP
      (fun e => match e with | .write _ _ => true | _ => false) = 3 ∧
    (runPlan cexCtxAudio [cex1Gate]).length = 1 := by
  refine ⟨?_, by decide, by decide⟩
  have h1 : cex1Gate.end_sec = 100 := rfl
  have h2 : cex1Gate.start_sec = 0 := rfl
  rw [h1, h2]
  norm_num

/-- C2 (amended): the caption file written by the per-clip renderer is the
raw input caption text byte-for-byte — `wrap_srt_text` is defined but not
invoked on that path, so the written track is not the reflowed one (and
the written content does not depend on any font measurement). -/
theorem c2_caption_file_raw (ctx : Ctx) (short : ShortData) (s : String)
    (hdur : 5 ≤ short.duration_sec ∧ short.duration_sec ≤ 60)
    (hs : short.srt = some s) (hne : s ≠ "") :
    (process_short ctx short).1.head? =
      some (Event.write (outPathOf ctx (srtNameOf short)) (.text s)) ∧
    ∀ p c, Event.write p c ∈ (process_short ctx short).1 →
      ∀ t, c = FileContent.text t → p = outPathOf ctx (srtNameOf short) ∧ t = s := by
  have hshape := process_short_in_range ctx short hdur
  have hsrt := srtEventsOf_some ctx short s hs hne
  constructor
  · rw [hshape]
    simp [hsrt]
  · intro p c hmem t hct
    rw [hshape] at hmem
    simp only at hmem
    rw [hsrt] at hmem
    rcases List.mem_append.mp hmem with hin | hin
    · simp only [List.mem_singleton] at hin
      injection hin with hp hc
      subst hct
      injection hc with hts
      exact ⟨hp, hts⟩
    · exact absurd hct (clipRender_text_writes ctx short p c hin t)

def cex2Raw : String := "1\n0 --> 1\naaaa bbbb"

def cex2Short : ShortData :=
  { id := "c2", title := "t", start_sec := 0, end_sec := 6, duration_sec := 6,
    language := "en", direction := "ltr", category := "c", keywords := [],
    srt := some cex2Raw, thumbnail_title := "T" }

theorem c2_caption_file_raw_witness :
    (process_short cexCtxAudio cex2Short).1.head? =
      some (Event.write (outPathOf cexCtxAudio (srtNameOf cex2Short))
        (FileContent.text cex2Raw)) :=
  (c2_caption_file_raw cexCtxAudio cex2Short cex2Raw (by decide) (by decide) (by decide)).1

theorem c2_caption_not_reflowed_cex :
    Event.write "out/c2__t.srt" (FileContent.text cex2Raw) ∈
      (process_short cexCtxAudio cex2Short).1 ∧
    wrap_srt_text measLen1 id 5 [(cex2Raw, "")] ≠ cex2Raw ∧
    (∀ e ∈ (process_short cexCtxAudio cex2Short).1,
      e ≠ Event.write "out/c2__t.srt"
        (FileContent.text (wrap_srt_text measLen1 id 5 [(cex2Raw, "")]))) := by
  exact ⟨by decide, by decide, by decide⟩

/-- C10: for every entry that passes duration validation and carries
caption text, the caption write is the first observable effect — it
precedes every external invocation — and when the render (or thumbnail)
step fails, the caption write stays in the trace while the entry
contributes no manifest record. -/
theorem c10_caption_before_render (ctx : Ctx) (short : ShortData) (s : String)
    (hdur : 5 ≤ short.duration_sec ∧ short.duration_sec ≤ 60)
    (hs : short.srt = some s) (hne : s ≠ "") :
    (process_short ctx short).1.head? =
      some (Event.write (outPathOf ctx (srtNameOf short)) (.text s)) ∧
    ((process_short ctx short).2 = none → runPlan ctx [short] = []) := by
  constructor
  · rw [process_short_in_range ctx short hdur]
    simp [srtEventsOf_some ctx short s hs hne]
  · intro hfail
    rw [runPlan_eq_filterMap]
    simp [List.filterMap_cons, successRec, hfail]

def videoInfo : JVal :=
  .jobj [("codec_type", .jstr "video"), ("width", .jnum 1920), ("height", .jnum 1080)]

def cexCtxFail : Ctx :=
  { renderOk := fun _ => false, measC := measLen, measU := measLen, reshape := id,
    fmt := fmtQ, sourceExt := ".mp4", mediaInfo := videoInfo, args := cexArgs }

def cex10Short : ShortData :=
  { id := "f1", title := "t", start_sec := 0, end_sec := 6, duration_sec := 6,
    language := "en", direction := "ltr", category := "c", keywords := [],
    srt := some "sub", thumbnail_title := "T" }

theorem c10_caption_before_render_witness :
    (process_short cexCtxFail cex10Short).1.head? =
      some (Event.write (outPathOf cexCtxFail (srtNameOf cex10Short))
        (FileContent.text "sub")) ∧
    runPlan cexCtxFail [cex10Short] = [] := by
  have h := c10_caption_before_render cexCtxFail cex10Short "sub"
    (by decide) (by decide) (by decide)
  exact ⟨h.1, h.2 (by decide)⟩

/-- C3: a manifest is written iff at least one entry succeeded; its row
count equals the number of plan entries minus skips minus failures, rows
are the success records in plan order, and the header is the success
records' field names. -/
theorem c3_manifest_shape (ctx : Ctx) (shorts : List ShortData) :
    (writeManifestOpt (runPlan ctx shorts) = none ↔
      shorts.countP (isSuccessB ctx) = 0) ∧
    runPlan ctx shorts = shorts.filterMap (successRec ctx) ∧
    ((runPlan ctx shorts).length + shorts.countP (isSkipB ctx) +
      shorts.countP (isFailB ctx) = shorts.length) ∧
    (∀ mo, writeManifestOpt (runPlan ctx shorts) = some mo →
      mo.header = recordKeys ∧ mo.rows = runPlan ctx shorts) := by
  have hfm := runPlan_eq_filterMap ctx shorts
  refine ⟨?_, hfm, ?_, ?_⟩
  · constructor
    · intro hnone
      rw [← length_filterMap_eq_countP, ← hfm]
      cases hrs : runPlan ctx shorts with
      | nil => rfl
      | cons a l =>
        rw [hrs] at hnone
        unfold writeManifestOpt at hnone
        cases hnone
    · intro hcount
      have hlen : (runPlan ctx shorts).length = 0 := by
        rw [hfm, length_filterMap_eq_countP]
        exact hcount
      cases hrs : runPlan ctx shorts with
      | nil => rfl
      | cons a l =>
        rw [hrs] at hlen
        simp at hlen
  · rw [hfm]
    exact outcome_partition ctx shorts
  · intro mo hmo
    cases hrs : runPlan ctx shorts with
    | nil =>
      rw [hrs] at hmo
      unfold writeManifestOpt at hmo
      cases hmo
    | cons a l =>
      rw [hrs] at hmo
      unfold writeManifestOpt at hmo
      injection hmo with hmo2
      rw [← hmo2]
      exact ⟨rfl, rfl⟩

def cex3Good : ShortData :=
  { id := "e1", title := "t1", start_sec := 0, end_sec := 6, duration_sec := 6,
    language := "en", direction := "ltr", category := "c", keywords := [],
    srt := none, thumbnail_title := "T" }

def cex3Skip : ShortData :=
  { id := "e2", title := "t2", start_sec := 0, end_sec := 3, duration_sec := 3,
    language := "en", direction := "ltr", category := "c", keywords := [],
    srt := none, thumbnail_title := "T" }

def cex3Fail : ShortData :=
  { id := "e3", title := "t3", start_sec := 0, end_sec := 6, duration_sec := 6,
    language := "en", direction := "ltr", category := "c", keywords := [],
    srt := none, thumbnail_title := "T" }

def cex3Ctx : Ctx :=
  { renderOk := fun cmd => !cmd.contains "out/e3__t3.mp4", measC := measLen,
    measU := measLen, reshape := id, fmt := fmtQ, sourceExt := ".mp3",
    mediaInfo := audioDefault, args := cexArgs }

def cex3Plan : List ShortData := [cex3Good, cex3Skip, cex3Fail]

theorem c3_manifest_shape_witness :
    ((⟨recordKeys, runPlan cex3Ctx cex3Plan⟩ : ManifestOut).header = recordKeys ∧
      (⟨recordKeys, runPlan cex3Ctx cex3Plan⟩ : ManifestOut).rows =
        runPlan cex3Ctx cex3Plan) ∧
    (runPlan cex3Ctx cex3Plan).length = 1 ∧
    cex3Plan.countP (isSkipB cex3Ctx) = 1 ∧
    cex3Plan.countP (isFailB cex3Ctx) = 1 ∧ cex3Plan.length = 3 := by
  refine ⟨(c3_manifest_shape cex3Ctx cex3Plan).2.2.2 _ (by decide),
    by decide, by decide, by decide, by decide⟩

/-- C8 (amended): for an audio-kind source and an entry passing the gate,
the render invocation clamps the output duration with `-t` to the entry's
`duration_sec` field (not to `end_sec - start_sec`); the waveform leg is
sized to the full output width by 20% of the output height and overlaid
horizontally centered at 65% of the frame height. -/
theorem c8_audio_duration_clamp (ctx : Ctx) (short : ShortData)
    (kvs : List (String × JVal))
    (hdur : 5 ≤ short.duration_sec ∧ short.duration_sec ≤ 60)
    (hm : ctx.mediaInfo = .jobj kvs) (ha : codecAudioTest kvs = true) :
    ∃ cmd, Event.exec cmd ∈ (process_short ctx short).1 ∧
      cmd.get? 22 = some "-t" ∧
      cmd.get? 23 = some (ctx.fmt short.duration_sec) ∧
      cmd.get? 24 = some (outPathOf ctx (videoNameOf short)) ∧
      cmd.get? 6 = some "-filter_complex" ∧
      cmd.get? 7 = some (String.intercalate ";" (audioFilterChain ctx short)) ∧
      (audioFilterChain ctx short).get? 0 =
        some ("[0:v]scale=" ++ toString ctx.args.width ++ ":" ++
          toString ctx.args.height ++ ",loop=loop=-1:size=1:start=0[bg]") ∧
      (audioFilterChain ctx short).get? 3 =
        some ("[a_wave]showwaves=s=" ++ toString ctx.args.width ++ "x" ++
          toString (ctx.args.height * 2 / 10) ++
          ":mode=line:colors=#FFFFFF|#CCCCCC:rate=25,format=yuva420p[wave]") ∧
      (audioFilterChain ctx short).get? 4 =
        some "[bg][wave]overlay=(W-w)/2:H*0.65[v_final]" := by
  refine ⟨audioCommand ctx short (outPathOf ctx (videoNameOf short)), ?_,
    rfl, rfl, rfl, rfl, rfl, rfl, rfl, rfl⟩
  rw [process_short_in_range ctx short hdur]
  exact List.mem_append_right _ (clipRender_audio_exec ctx short kvs hm ha)

def cex8Short : ShortData :=
  { id := "a1", title := "t", start_sec := 10, end_sec := 16, duration_sec := 6,
    language := "en", direction := "ltr", category := "c", keywords := [],
    srt := none, thumbnail_title := "T" }

theorem c8_audio_duration_clamp_witness :
    ∃ cmd, Event.exec cmd ∈ (process_short cexCtxAudio cex8Short).1 ∧
      cmd.get? 22 = some "-t" ∧
      cmd.get? 23 = some (cexCtxAudio.fmt cex8Short.duration_sec) ∧
      cmd.get? 24 = some (outPathOf cexCtxAudio (videoNameOf cex8Short)) ∧
      cmd.get? 6 = some "-filter_complex" ∧
      cmd.get? 7 = some (String.intercalate ";" (audioFilterChain cexCtxAudio cex8Short)) ∧
      (audioFilterChain cexCtxAudio cex8Short).get? 0 =
        some ("[0:v]scale=" ++ toString cexCtxAudio.args.width ++ ":" ++
          toString cexCtxAudio.args.height ++ ",loop=loop=-1:size=1:start=0[bg]") ∧
      (audioFilterChain cexCtxAudio cex8Short).get? 3 =
        some ("[a_wave]showwaves=s=" ++ toString cexCtxAudio.args.width ++ "x" ++
          toString (cexCtxAudio.args.height * 2 / 10) ++
          ":mode=line:colors=#FFFFFF|#CCCCCC:rate=25,format=yuva420p[wave]") ∧
      (audioFilterChain cexCtxAudio cex8Short).get? 4 =
        some "[bg][wave]overlay=(W-w)/2:H*0.65[v_final]" :=
  c8_audio_duration_clamp cexCtxAudio cex8Short [("codec_type", JVal.jstr "audio")]
    (by decide) rfl (by decide)

/-- The external invocations of a trace, in order. -/
def execCmdsOf (tr : List Event) : List (List String) :=
  tr.filterMap (fun e => match e with | .exec c => some c | _ => none)

def cex8xShort : ShortData :=
  { id := "a2", title := "t", start_sec := 0, end_sec := 50, duration_sec := 7,
    language := "en", direction := "ltr", category := "c", keywords := [],
    srt := none, thumbnail_title := "T" }

theorem c8_duration_clamp_cex :
    (5 ≤ cex8xShort.end_sec - cex8xShort.start_sec ∧
      cex8xShort.end_sec - cex8xShort.start_sec ≤ 60) ∧
    fmtQ (cex8xShort.end_sec - cex8xShort.start_sec) = "50" ∧
    execCmdsOf (process_short cexCtxAudio cex8xShort).1 ≠ [] ∧
    ∀ cmd ∈ execCmdsOf (process_short cexCtxAudio cex8xShort).1,
      cmd.get? 22 = some "-t" ∧ cmd.get? 23 = some "7" ∧
      cmd.get? 23 ≠ some "50" := by
  have h1 : cex8xShort.end_sec = 50 := rfl
  have h2 : cex8xShort.start_sec = 0 := rfl
  have h50 : cex8xShort.end_sec - cex8xShort.start_sec = 50 := by
    rw [h1, h2]; norm_num
  refine ⟨?_, ?_, by decide, by decide⟩
  · rw [h50]
    norm_num
  · rw [h50]
    rfl

/-- C9: media-kind classification is total and defaults to audio — when
the probe subprocess fails, its output is unparseable JSON, or it reports
no visual stream, `get_media_info` raises nothing and returns
`{"codec_type": "audio"}`, and an in-range entry is then rendered through
the audio path (an invocation carrying a `-filter_complex` graph). -/
theorem c9_probe_defaults_audio (o : ProbeOutcome)
    (h : o = .procError ∨ o = .badOutput ∨
      ∃ v, o = .jsonOut v ∧ reportsNoVisual v = true) :
    get_media_info o = .ok audioDefault ∧
    ∀ ctx short, ctx.mediaInfo = audioDefault →
      5 ≤ short.duration_sec ∧ short.duration_sec ≤ 60 →
      ∃ cmd, Event.exec cmd ∈ (process_short ctx short).1 ∧
        "-filter_complex" ∈ cmd := by
  constructor
  · rcases h with h | h | ⟨v, hv, hnv⟩
    · rw [h]; rfl
    · rw [h]; rfl
    · rw [hv]
      cases v with
      | jobj kvs =>
        unfold reportsNoVisual at hnv
        simp only [get_media_info]
        have hnv2 : (match dictGetLast kvs "streams" with
            | none => true
            | some (JVal.jarr xs) => xs.isEmpty
            | some _ => false) = true := hnv
        cases hdg : dictGetLast kvs "streams" with
        | none => simp [pyTruthy]
        | some w =>
          rw [hdg] at hnv2
          cases w with
          | jarr xs =>
            cases xs with
            | nil => simp [pyTruthy]
            | cons x xt => simp at hnv2
          | jnull => simp at hnv2
          | jbool b => simp at hnv2
          | jnum q => simp at hnv2
          | jstr s => simp at hnv2
          | jobj kvs2 => simp at hnv2
      | jnull => simp [reportsNoVisual] at hnv
      | jbool b => simp [reportsNoVisual] at hnv
      | jnum q => simp [reportsNoVisual] at hnv
      | jstr s => simp [reportsNoVisual] at hnv
      | jarr xs => simp [reportsNoVisual] at hnv
  · intro ctx short hmi hdur
    refine ⟨audioCommand ctx short (outPathOf ctx (videoNameOf short)), ?_, ?_⟩
    · rw [process_short_in_range ctx short hdur]
      refine List.mem_append_right _
        (clipRender_audio_exec ctx short [("codec_type", .jstr "audio")] ?_ (by decide))
      rw [hmi]
      rfl
    · unfold audioCommand
      exact List.mem_cons_of_mem _ (List.mem_cons_of_mem _ (List.mem_cons_of_mem _
        (List.mem_cons_of_mem _ (List.mem_cons_of_mem _ (List.mem_cons_of_mem _
          (List.mem_cons_self _ _))))))

def cex9Short : ShortData :=
  { id := "p1", title := "t", start_sec := 0, end_sec := 8, duration_sec := 8,
    language := "en", direction := "ltr", category := "c", keywords := [],
    srt := none, thumbnail_title := "T" }

theorem c9_probe_defaults_audio_witness :
    get_media_info ProbeOutcome.procError = Except.ok audioDefault ∧
    ∃ cmd, Event.exec cmd ∈ (process_short cexCtxAudio cex9Short).1 ∧
      "-filter_complex" ∈ cmd := by
  have h := c9_probe_defaults_audio ProbeOutcome.procError (Or.inl rfl)
  exact ⟨h.1, h.2 cexCtxAudio cex9Short rfl (by decide)⟩
